import Mathlib

/-!
Verification of the ANYToken-distribution reward-sending core: a shallow
embedding of the endpoint gateway (`callapi`), the contract-call helpers,
the transaction builder (`BuildTxArgs`) and the reward distribution loop
(`SendRewardsFromFile`), with theorems settling the specified properties.

Go conventions modelled here:
- a Go `(value, error)` pair becomes `α × Option Err` (`none` = nil error);
- network calls are abstracted as result streams (`Nat → α × Option Err`),
  indexed by how many times the call site has been hit;
- `time.Sleep` call sites increment a ghost sleep counter, so the absence
  of a sleep in a loop is visible in the model;
- `uint64` arithmetic is `Nat` with an explicit `% 2 ^ 64` where the code
  can overflow (the nonce increment).
-/

set_option autoImplicit false

namespace ANYTokenDist

/-- Go `error` values, modelled as strings. `none` in an `Option Err` is Go's nil error. -/
abbrev Err := String

/-! ## Endpoint Gateway (package `callapi`, file part_000)

Every single-pass operation shares the Go pattern

    func (c *APICaller) Op(...) (res T, err error) {
        for _, client := range c.clients { res, err = client.Op(...); if err == nil { return } }
        return
    }

`res`/`err` are named return values initialised to the zero value / nil and
overwritten on every iteration; the loop returns early on the first nil
error, and after the loop the last pair (or the initial one, for an empty
client list) is returned. -/

/-- The client iteration loop: `acc` is the current `(res, err)` pair,
the list holds each client's result for this operation. -/
def loopClients {α : Type} (acc : α × Option Err) : List (α × Option Err) → α × Option Err
  | [] => acc
  | r :: rs => if r.2 = none then r else loopClients r rs

/-- A whole single-pass gateway operation: zero value `dflt`, one result per
connected client, in list order. -/
def tryEach {α : Type} (dflt : α) (clientResults : List (α × Option Err)) : α × Option Err :=
  loopClients (dflt, none) clientResults

/-- `APICaller.BalanceAt` (part_000:152). Zero value of `*big.Int` is nil. -/
def BalanceAt (clientResults : List (Option Int × Option Err)) : Option Int × Option Err :=
  tryEach none clientResults

/-- `APICaller.GetAccountNonce` (part_000:163). Zero value of `uint64` is 0. -/
def GetAccountNonce (clientResults : List (Nat × Option Err)) : Nat × Option Err :=
  tryEach 0 clientResults

/-- `APICaller.SendTransaction` (part_000:174). Only an error is returned. -/
def SendTransaction (clientResults : List (Unit × Option Err)) : Unit × Option Err :=
  tryEach () clientResults

/-- `APICaller.GetChainID` (part_000:185). -/
def GetChainID (clientResults : List (Option Int × Option Err)) : Option Int × Option Err :=
  tryEach none clientResults

/-- `APICaller.SuggestGasPrice` (part_000:196). -/
def SuggestGasPrice (clientResults : List (Option Int × Option Err)) : Option Int × Option Err :=
  tryEach none clientResults

/-- `APICaller.DoCall` (part_000:218): generic contract call; zero value of `[]byte` is nil. -/
def DoCall (clientResults : List (List Nat × Option Err)) : List Nat × Option Err :=
  tryEach [] clientResults

/-- `APICaller.HeaderByNumber` (part_000:229); the header is abstracted to a number. -/
def HeaderByNumber (clientResults : List (Option Nat × Option Err)) : Option Nat × Option Err :=
  tryEach none clientResults

/-! ### Retry wrappers -/

/-- Result of a retried operation, instrumented with the number of attempts
made and the number of `time.Sleep` calls executed. -/
structure RetryOutcome (α : Type) where
  result : α × Option Err
  attemptsMade : Nat
  sleeps : Nat
  deriving Repr, DecidableEq

/-- The loop of `APICaller.GetCoinBalance` (part_000:68-73):
`for i := 0; i < c.rpcRetryCount; i++ { balance, err = c.BalanceAt(...); if err == nil { break } }`.
There is no `time.Sleep` in this loop body. `attempt i` is the result of the
`i`-th `BalanceAt` call; `cur` is the carried `(balance, err)` pair. -/
def getCoinBalanceLoop (attempt : Nat → Option Int × Option Err) :
    Nat → Nat → (Option Int × Option Err) → RetryOutcome (Option Int)
  | 0, _, cur => ⟨cur, 0, 0⟩
  | count + 1, i, _ =>
    let r := attempt i
    if r.2 = none then ⟨r, 1, 0⟩
    else
      let o := getCoinBalanceLoop attempt count (i + 1) r
      ⟨o.result, o.attemptsMade + 1, o.sleeps⟩

/-- `APICaller.GetCoinBalance` (part_000:67-79): runs the retry loop, then
`if err != nil { return nil, err }; return balance, nil`. -/
def GetCoinBalance (rpcRetryCount : Nat) (attempt : Nat → Option Int × Option Err) :
    RetryOutcome (Option Int) :=
  let o := getCoinBalanceLoop attempt rpcRetryCount 0 (none, none)
  if o.result.2.isSome then ⟨(none, o.result.2), o.attemptsMade, o.sleeps⟩
  else ⟨(o.result.1, none), o.attemptsMade, o.sleeps⟩

/-- The loop of `APICaller.CallContract` (part_000:258-265):
`for i := 0; i < c.rpcRetryCount; i++ { res, err = c.DoCall(msg, blockNumber);
if err == nil { break }; log.Error(...); time.Sleep(c.rpcRetryInterval) }`.
Each failed attempt is followed by one `time.Sleep`. -/
def callContractLoop (attempt : Nat → List Nat × Option Err) :
    Nat → Nat → (List Nat × Option Err) → RetryOutcome (List Nat)
  | 0, _, cur => ⟨cur, 0, 0⟩
  | count + 1, i, _ =>
    let r := attempt i
    if r.2 = none then ⟨r, 1, 0⟩
    else
      let o := callContractLoop attempt count (i + 1) r
      ⟨o.result, o.attemptsMade + 1, o.sleeps + 1⟩

/-- `APICaller.CallContract` (part_000:253-267): retry loop around `DoCall`,
returning the final `(res, err)` unchanged. -/
def CallContract (rpcRetryCount : Nat) (attempt : Nat → List Nat × Option Err) :
    RetryOutcome (List Nat) :=
  callContractLoop attempt rpcRetryCount 0 ([], none)

/-! ## Contract Call Helper (package `callapi`)

Byte-level helpers mirror `common.LeftPadBytes`, `common.GetData`,
`common.GetBigInt`, `common.BytesToAddress` from the geth fork the
repository uses, restricted to how this code calls them. Bytes are `Nat`s
(each < 256 in practice). -/

/-- `common.LeftPadBytes(bs, n)`: left-pad with zeros to length `n`
(returns `bs` unchanged when already at least that long). -/
def leftPadBytes (bs : List Nat) (n : Nat) : List Nat :=
  List.replicate (n - bs.length) 0 ++ bs

/-- `common.GetData(data, start, size)`: the slice `data[start:start+size]`,
right-padded with zeros to `size`. -/
def getData (bs : List Nat) (start size : Nat) : List Nat :=
  let seg := (bs.drop start).take size
  seg ++ List.replicate (size - seg.length) 0

/-- Big-endian bytes to a natural number (`new(big.Int).SetBytes`). -/
def bytesToNat (bs : List Nat) : Nat :=
  bs.foldl (fun acc b => acc * 256 + b) 0

/-- `common.GetBigInt(data, start, size)`. -/
def getBigInt (bs : List Nat) (start size : Nat) : Int :=
  (bytesToNat (getData bs start size) : Int)

/-- A 20-byte chain address (`common.Address`). -/
structure Address where
  bytes : List Nat
  deriving Repr, DecidableEq

/-- The zero value `common.Address{}`. -/
def zeroAddress : Address := ⟨List.replicate 20 0⟩

/-- `common.BytesToAddress`: keep the last 20 bytes, left-padded to 20. -/
def bytesToAddress (bs : List Nat) : Address :=
  ⟨leftPadBytes (bs.drop (bs.length - 20)) 20⟩

/-- `packBytes` (part_000:97-107): first slice verbatim, every later slice
left-padded to a 32-byte word. -/
def packBytes : List (List Nat) → List Nat
  | [] => []
  | b0 :: rest => b0 ++ (rest.map (leftPadBytes · 32)).flatten

/-- Big-endian minimal byte encoding of a natural number, fuel-driven
(`big.Int.Bytes()` of a non-negative value; 0 encodes to the empty slice). -/
def natToBytesAux : Nat → Nat → List Nat
  | _, 0 => []
  | 0, _ + 1 => []
  | fuel + 1, n + 1 => natToBytesAux fuel ((n + 1) / 256) ++ [(n + 1) % 256]

/-- `big.Int.Bytes()` for non-negative values. -/
def natToBytes (n : Nat) : List Nat := natToBytesAux n n

/-- `APICaller.GetTokenTotalSupply` (part_000:87-95): call the total-supply
selector through `CallContract` and decode one 32-byte word; any error is
returned unchanged (with a nil result). -/
def GetTokenTotalSupply (rpcRetryCount : Nat) (attempt : Nat → List Nat × Option Err) :
    Option Int × Option Err :=
  let r := (CallContract rpcRetryCount attempt).result
  match r.2 with
  | some e => (none, some e)
  | none => (some (getBigInt r.1 0 32), none)

/-- `APICaller.GetTokenBalance` (part_000:110-119): same decoding and error
propagation as total supply (the balance-of call data differs, which the
attempt stream abstracts). -/
def GetTokenBalance (rpcRetryCount : Nat) (attempt : Nat → List Nat × Option Err) :
    Option Int × Option Err :=
  let r := (CallContract rpcRetryCount attempt).result
  match r.2 with
  | some e => (none, some e)
  | none => (some (getBigInt r.1 0 32), none)

/-- `APICaller.GetExchangeTokenAddress` (part_000:132-139): on any
`CallContract` error the zero address is returned — the signature has no
error result at all. -/
def GetExchangeTokenAddress (rpcRetryCount : Nat) (attempt : Nat → List Nat × Option Err) :
    Address :=
  let r := (CallContract rpcRetryCount attempt).result
  match r.2 with
  | some _ => zeroAddress
  | none => bytesToAddress (getData r.1 0 32)

/-- `APICaller.GetExchangeFactoryAddress` (part_000:142-149): identical
shape to the token-address query. -/
def GetExchangeFactoryAddress (rpcRetryCount : Nat) (attempt : Nat → List Nat × Option Err) :
    Address :=
  let r := (CallContract rpcRetryCount attempt).result
  match r.2 with
  | some _ => zeroAddress
  | none => bytesToAddress (getData r.1 0 32)

/-- `APICaller.GetErc20Name` (part_000:270-276). The ABI string decoder
`UnpackABIEncodedStringInIndex` is not among the provided sources, so it is
abstracted as the `unpack` parameter; it is only reached on success. -/
def GetErc20Name (unpack : List Nat → String × Option Err)
    (rpcRetryCount : Nat) (attempt : Nat → List Nat × Option Err) : String × Option Err :=
  let r := (CallContract rpcRetryCount attempt).result
  match r.2 with
  | some e => ("", some e)
  | none => unpack r.1

/-- `APICaller.GetErc20Symbol` (part_000:279-285), same shape as the name query. -/
def GetErc20Symbol (unpack : List Nat → String × Option Err)
    (rpcRetryCount : Nat) (attempt : Nat → List Nat × Option Err) : String × Option Err :=
  let r := (CallContract rpcRetryCount attempt).result
  match r.2 with
  | some e => ("", some e)
  | none => unpack r.1

/-- `APICaller.GetErc20Decimals` (part_000:288-294): on error `(0, err)`;
on success the decoded word through `uint8(...Uint64())` truncation. -/
def GetErc20Decimals (rpcRetryCount : Nat) (attempt : Nat → List Nat × Option Err) :
    Nat × Option Err :=
  let r := (CallContract rpcRetryCount attempt).result
  match r.2 with
  | some e => (0, some e)
  | none => (bytesToNat (getData r.1 0 32) % 2 ^ 64 % 2 ^ 8, none)

/-! ## Transaction Builder (`distributer/sendtx.go`) -/

/-- `transferFuncHash = common.FromHex("0xa9059cbb")` (sendtx.go:17). -/
def transferFuncHash : List Nat := [0xa9, 0x05, 0x9c, 0xbb]

/-- `types.NewEIP155Signer(chainID)` (sendtx.go:111): the signer is fully
determined by the chain identifier, modelled as that identifier. -/
def newEIP155Signer (chainID : Int) : Int := chainID

/-- Outcome of `BuildTxArgs.Check` (sendtx.go:48-70) minus the trailing
`setDefaults` call, which is modelled separately below. -/
structure CheckOut where
  sender : Address
  fromAddr : Address
  hasKey : Bool
  deriving Repr, DecidableEq

/-- `BuildTxArgs.Check(dryRun)` (sendtx.go:48-70). `senderArg` is the
caller-supplied `Sender` string, already parsed (`none` = empty string; the
`IsHexAddress` well-formedness check is outside the model since the parsed
form is well-formed by construction). `loadRes` is the outcome of
`loadKeyStore` (sendtx.go:72-99): `some a` means the keystore decrypted to
address `a`, `none` means reading or decrypting failed. On a load failure
in dry-run mode the supplied sender (or the zero address) is adopted as
`fromAddr`; then `strings.EqualFold(args.Sender, args.fromAddr.String())`
— address equality, since the hex rendering is injective up to case — is
required in every mode (sendtx.go:64). -/
def Check (dryRun : Bool) (senderArg : Option Address) (loadRes : Option Address) :
    Except Err CheckOut :=
  match loadRes with
  | some keyAddr =>
    let fromAddr := keyAddr
    let sender := senderArg.getD fromAddr
    if sender ≠ fromAddr then Except.error "sender mismatch"
    else Except.ok ⟨sender, fromAddr, true⟩
  | none =>
    if !dryRun then Except.error "load keystore failed"
    else
      let fromAddr := senderArg.getD zeroAddress
      let sender := senderArg.getD fromAddr
      if sender ≠ fromAddr then Except.error "sender mismatch"
      else Except.ok ⟨sender, fromAddr, false⟩

/-- The mutable parameter fields of `BuildTxArgs` that `setDefaults`
(sendtx.go:101-139) resolves. `chainSigner` holds the identifier the
EIP-155 signer is bound to. -/
structure DefaultsState where
  chainID : Option Int
  chainSigner : Option Int
  nonce : Option Nat
  gasPrice : Option Int
  gasLimit : Option Nat
  deriving Repr, DecidableEq

/-- Result streams for the three gateway queries `setDefaults` makes:
the `i`-th entry is the result of the `i`-th call of that query
(`none` = the call returned an error). -/
structure DefaultsQueries where
  chainIDAt : Nat → Option Int
  nonceAt : Nat → Option Nat
  gasPriceAt : Nat → Option Int

/-- The gas-limit defaulting at the end of a successful iteration
(sendtx.go:132-135): `defaultGasLimit := uint64(90000)` when unset. -/
def finishGasLimit (s : DefaultsState) : DefaultsState :=
  match s.gasLimit with
  | some _ => s
  | none => { s with gasLimit := some 90000 }

/-- Gas-price stage of one `for` iteration (sendtx.go:124-130): on a query
error the iteration `continue`s (`Sum.inl` carries the state and the three
advanced stream indices); otherwise the iteration reaches `break`
(`Sum.inr`). -/
def iterGasPrice (q : DefaultsQueries) (ci ni gi : Nat) (s : DefaultsState) :
    (DefaultsState × Nat × Nat × Nat) ⊕ DefaultsState :=
  match s.gasPrice with
  | some _ => Sum.inr (finishGasLimit s)
  | none =>
    match q.gasPriceAt gi with
    | none => Sum.inl (s, ci, ni, gi + 1)
    | some v => Sum.inr (finishGasLimit { s with gasPrice := some v })

/-- Nonce stage of one iteration (sendtx.go:114-122). -/
def iterNonce (q : DefaultsQueries) (ci ni gi : Nat) (s : DefaultsState) :
    (DefaultsState × Nat × Nat × Nat) ⊕ DefaultsState :=
  match s.nonce with
  | some _ => iterGasPrice q ci ni gi s
  | none =>
    match q.nonceAt ni with
    | none => Sum.inl (s, ci, ni + 1, gi)
    | some v => iterGasPrice q ci (ni + 1) gi { s with nonce := some v }

/-- Chain-identifier stage of one iteration (sendtx.go:105-112); on success
the signer is bound to the fetched identifier. -/
def iterChainID (q : DefaultsQueries) (ci ni gi : Nat) (s : DefaultsState) :
    (DefaultsState × Nat × Nat × Nat) ⊕ DefaultsState :=
  match s.chainID with
  | some _ => iterNonce q ci ni gi s
  | none =>
    match q.chainIDAt ci with
    | none => Sum.inl (s, ci + 1, ni, gi)
    | some v =>
      iterNonce q (ci + 1) ni gi
        { s with chainID := some v, chainSigner := some (newEIP155Signer v) }

/-- The unbounded `for { ... }` of `setDefaults`, fuel-limited (`none` =
still looping after `fuel` iterations). The second component counts
`time.Sleep` calls during the run: the loop body contains no sleep site, so
no branch increments it. -/
def setDefaultsLoop (q : DefaultsQueries) :
    Nat → Nat → Nat → Nat → DefaultsState → Option DefaultsState × Nat
  | 0, _, _, _, _ => (none, 0)
  | fuel + 1, ci, ni, gi, s =>
    match iterChainID q ci ni gi s with
    | Sum.inr s2 => (some s2, 0)
    | Sum.inl (s2, ci2, ni2, gi2) => setDefaultsLoop q fuel ci2 ni2 gi2 s2

/-- `BuildTxArgs.setDefaults` (sendtx.go:101-139), all stream indices
starting at zero. It has no error result in the source. -/
def setDefaults (q : DefaultsQueries) (fuel : Nat) (s : DefaultsState) :
    Option DefaultsState × Nat :=
  setDefaultsLoop q fuel 0 0 0 s

/-- The resolved `BuildTxArgs` fields used by `sendRewardsTransaction`,
after `Check`/`setDefaults` have run (all parameters present). -/
structure ResolvedArgs where
  fromAddr : Address
  nonce : Nat
  gasLimit : Nat
  gasPrice : Int
  chainID : Int
  chainSigner : Int
  hasKey : Bool
  deriving Repr, DecidableEq

/-- An unsigned transaction as built by `types.NewTransaction`
(sendtx.go:159). -/
structure RawTx where
  nonce : Nat
  toAddr : Address
  value : Int
  gasLimit : Nat
  gasPrice : Int
  data : List Nat
  deriving Repr, DecidableEq

/-- Environment for one `sendRewardsTransaction` call: the
`capi.GetAccountNonce` result (`none` = error), whether `types.SignTx`
fails, whether `capi.SendTransaction` fails, and the signed transaction's
hash. -/
structure SendTxOracle where
  liveNonce : Option Nat
  signFails : Bool
  sendFails : Bool
  txHash : Nat
  deriving Repr, DecidableEq

/-- The nonce reconciliation of sendtx.go:152-157: if the live query
succeeded and its value is strictly greater than the cached nonce, adopt
the live value, otherwise keep the cache. -/
def reconcileNonce (cached : Nat) (liveNonce : Option Nat) : Nat :=
  match liveNonce with
  | some live => if live > cached then live else cached
  | none => cached

/-- Result of one `sendRewardsTransaction` call, with ghost fields
recording the transaction that was built and whether the sign / submit
steps were reached. -/
structure SendTxResult where
  txHash : Option Nat
  err : Option Err
  args : ResolvedArgs
  builtTx : Option RawTx
  didSign : Bool
  didSubmit : Bool
  deriving Repr, DecidableEq

/-- The 68-byte call data of sendtx.go:147-150: the transfer selector, the
account hash (`account.Hash().Bytes()`, the address left-padded to 32
bytes) and the reward left-padded to 32 bytes. -/
def transferCallData (account : Address) (reward : Int) : List Nat :=
  transferFuncHash ++ leftPadBytes account.bytes 32 ++
    leftPadBytes (natToBytes reward.natAbs) 32

/-- `BuildTxArgs.sendRewardsTransaction` (sendtx.go:141-181). Dry run
returns `(nil, nil)` immediately. Otherwise: build the transfer call
data, reconcile the cached nonce against the live query, build the raw
transaction, sign, submit, and on a successful submission increment the
cached `uint64` nonce (mod `2 ^ 64`). The dead
`keyWrapper == nil && dryRun` branch (sendtx.go:161-164) and the
`signErr && !dryRun` guard (sendtx.go:167) are kept as in the source. -/
def sendRewardsTransaction (args : ResolvedArgs) (account : Address) (reward : Int)
    (rewardToken : Address) (dryRun : Bool) (o : SendTxOracle) : SendTxResult :=
  if dryRun then
    ⟨none, none, args, none, false, false⟩
  else
    let data := transferCallData account reward
    let args1 := { args with nonce := reconcileNonce args.nonce o.liveNonce }
    let rawTx : RawTx := ⟨args1.nonce, rewardToken, 0, args1.gasLimit, args1.gasPrice, data⟩
    if !args1.hasKey && dryRun then
      ⟨none, none, args1, some rawTx, false, false⟩
    else if o.signFails && !dryRun then
      ⟨none, some "sign tx failed", args1, some rawTx, true, false⟩
    else if o.sendFails then
      ⟨none, some "send tx failed", args1, some rawTx, true, true⟩
    else
      ⟨some o.txHash, none, { args1 with nonce := (args1.nonce + 1) % 2 ^ 64 },
        some rawTx, true, true⟩

/-! ## Reward Distribution Pipeline (`SendRewardsFromFile`, sendtx.go:262-296) -/

/-- One input line: an account and its reward (`none` models a nil
`*big.Int`). -/
structure AccountStat where
  account : Address
  reward : Option Int
  deriving Repr, DecidableEq

/-- One ledger body line. Modelled from the spec: the body-line writers
`WriteSendRewardResult` / `WriteSendRewardFromFileResult` are not among
the provided sources; per the spec's output-record contract each
successful send appends one line carrying the account, the reward, and
the transaction hash (absent in dry run). -/
structure LedgerLine where
  account : Address
  reward : Int
  txHash : Option Nat
  deriving Repr, DecidableEq

/-- The `log.Info("[sendRewards] rewards sended", ...)` report emitted both
on failure (sendtx.go:281) and after the loop (sendtx.go:294): the batch
total versus the rewards already sent. -/
structure Report where
  totalRewards : Int
  rewardsSended : Int
  deriving Repr, DecidableEq

/-- Result of the `SendRewardsFromFile` loop, with ghost counters for the
number of transfer attempts, sign operations and gateway submissions. -/
structure RunResult where
  args : ResolvedArgs
  ledger : List LedgerLine
  rewardsSended : Int
  attempts : Nat
  signs : Nat
  submissions : Nat
  err : Option Err
  report : Report
  deriving Repr, DecidableEq

/-- The loop body of `SendRewardsFromFile` (sendtx.go:271-296). Skips
entries whose reward is nil or non-positive (sendtx.go:275-278); calls the
transaction sender for the rest — `Option.SendRewardsTransaction` is not
among the provided sources; modelled from the spec as delegating to
`sendRewardsTransaction` with the run's reward token and dry-run flag,
environment drawn from `oracle` at the running attempt index. On error it
logs the sent-versus-total report and fails the whole run
(sendtx.go:280-284); on success it accumulates the reward and appends one
ledger body line (both `WriteSendRewardResult` branches write the same
modelled line). -/
def runRewardsLoop (dryRun canSaveDB : Bool) (rewardToken : Address) (totalValue : Int)
    (oracle : Nat → SendTxOracle) :
    List AccountStat → ResolvedArgs → List LedgerLine → Int → Nat → Nat → Nat → RunResult
  | [], args, ledger, sended, att, sg, sub =>
    ⟨args, ledger, sended, att, sg, sub, none, ⟨totalValue, sended⟩⟩
  | stat :: rest, args, ledger, sended, att, sg, sub =>
    match stat.reward with
    | none => runRewardsLoop dryRun canSaveDB rewardToken totalValue oracle
        rest args ledger sended att sg sub
    | some r =>
      if r ≤ 0 then
        runRewardsLoop dryRun canSaveDB rewardToken totalValue oracle
          rest args ledger sended att sg sub
      else
        let res := sendRewardsTransaction args stat.account r rewardToken dryRun (oracle att)
        let sg2 := sg + (if res.didSign then 1 else 0)
        let sub2 := sub + (if res.didSubmit then 1 else 0)
        match res.err with
        | some _ =>
          ⟨res.args, ledger, sended, att + 1, sg2, sub2,
            some "[sendRewards] send tx failed", ⟨totalValue, sended⟩⟩
        | none =>
          runRewardsLoop dryRun canSaveDB rewardToken totalValue oracle
            rest res.args (ledger ++ [⟨stat.account, r, res.txHash⟩]) (sended + r)
            (att + 1) sg2 sub2

/-- `Option.SendRewardsFromFile`'s send loop over the parsed account list,
starting from an empty ledger and zeroed counters (`rewardsSended :=
big.NewInt(0)`, sendtx.go:271). -/
def SendRewardsFromFileLoop (dryRun canSaveDB : Bool) (rewardToken : Address)
    (totalValue : Int) (oracle : Nat → SendTxOracle)
    (stats : List AccountStat) (args : ResolvedArgs) : RunResult :=
  runRewardsLoop dryRun canSaveDB rewardToken totalValue oracle stats args [] 0 0 0 0

/-- The positive-reward entries of a batch, in order: exactly those the
loop attempts to send. -/
def posEntries (stats : List AccountStat) : List (Address × Int) :=
  stats.filterMap fun s =>
    match s.reward with
    | none => none
    | some r => if r ≤ 0 then none else some (s.account, r)

/-- Dropping the skipped entries of a batch (nil, zero or negative
reward). -/
def filterPositive (stats : List AccountStat) : List AccountStat :=
  stats.filter fun s =>
    match s.reward with
    | none => false
    | some r => decide (0 < r)

/-- Sum of the rewards of a list of positive entries. -/
def sumRewards (ps : List (Address × Int)) : Int :=
  (ps.map Prod.snd).sum

/-- The ledger lines produced by successfully sending the entries `ps`,
the first drawing its hash from `oracle att`, the next from
`oracle (att+1)`, and so on. -/
def ledgerOf (oracle : Nat → SendTxOracle) (att : Nat) : List (Address × Int) → List LedgerLine
  | [] => []
  | (a, r) :: rest => ⟨a, r, some (oracle att).txHash⟩ :: ledgerOf oracle (att + 1) rest

/-- An oracle under which a (non-dry-run) send attempt succeeds. -/
def goodAttempt (o : SendTxOracle) : Prop := o.signFails = false ∧ o.sendFails = false

/-- An oracle under which a (non-dry-run) send attempt fails. -/
def badAttempt (o : SendTxOracle) : Prop := o.signFails = true ∨ o.sendFails = true

instance decidableGoodAttempt (o : SendTxOracle) : Decidable (goodAttempt o) :=
  inferInstanceAs (Decidable (o.signFails = false ∧ o.sendFails = false))

instance decidableBadAttempt (o : SendTxOracle) : Decidable (badAttempt o) :=
  inferInstanceAs (Decidable (o.signFails = true ∨ o.sendFails = true))

/-! ## Concrete instances used to exercise the model -/

/-- A 20-byte address whose last byte is `n`. -/
def addrOf (n : Nat) : Address := ⟨List.replicate 19 0 ++ [n]⟩

/-- A balance-query stream failing on the first attempt and succeeding on
the second. -/
def coinAttemptFailOnce : Nat → Option Int × Option Err :=
  fun i => if i = 0 then (none, some "boom") else (some 5, none)

/-- A contract-call stream failing on the first attempt and succeeding on
the second. -/
def callAttemptFailOnce : Nat → List Nat × Option Err :=
  fun i => if i = 0 then ([], some "boom") else ([1], none)

/-- A contract-call stream where every attempt fails. -/
def callAttemptsAllFail : Nat → List Nat × Option Err := fun _ => ([], some "boom")

/-- A balance-query stream where every attempt fails. -/
def coinAttemptsAllFail : Nat → Option Int × Option Err := fun _ => (none, some "boom")

/-- A contract-call stream where every attempt succeeds with an all-zero
32-byte word. -/
def callAttemptsZeroWord : Nat → List Nat × Option Err :=
  fun _ => (List.replicate 32 0, none)

/-- Parameter queries whose chain-identifier call fails once and then
succeeds; nonce and gas-price calls always succeed. -/
def exampleQueries : DefaultsQueries :=
  ⟨fun i => if i = 0 then none else some 1, fun _ => some 3, fun _ => some 5⟩

/-- Resolved builder state with cached nonce 7. -/
def exampleArgs : ResolvedArgs := ⟨addrOf 9, 7, 90000, 2, 46688, 46688, true⟩

/-- A send environment whose live nonce query returns 9 and whose sign and
submit steps succeed. -/
def oracleLive9 : SendTxOracle := ⟨some 9, false, false, 77⟩

/-- A run environment where every send succeeds, the `i`-th with hash
`100 + i`. -/
def oracleAllGood : Nat → SendTxOracle := fun i => ⟨none, false, false, 100 + i⟩

/-- A run environment where the third attempted send (index 2) fails at
submission and all others succeed. -/
def oracleFailAt2 : Nat → SendTxOracle := fun i => ⟨none, false, decide (i = 2), 100 + i⟩

/-- The spec's example batch `[(A, 0), (B, 5), (C, −1)]`. -/
def exampleBatchABC : List AccountStat :=
  [⟨addrOf 1, some 0⟩, ⟨addrOf 2, some 5⟩, ⟨addrOf 3, some (-1)⟩]

/-- A five-entry batch with positive rewards 2, 3, 4, 5, 6 (total 20). -/
def exampleBatch5 : List AccountStat :=
  [⟨addrOf 1, some 2⟩, ⟨addrOf 2, some 3⟩, ⟨addrOf 3, some 4⟩,
   ⟨addrOf 4, some 5⟩, ⟨addrOf 5, some 6⟩]

/-! ### Gateway loop lemmas (shared helpers) -/

theorem loopClients_first_success {α : Type} (acc : α × Option Err)
    (pre post : List (α × Option Err)) (s : α × Option Err)
    (hpre : ∀ r ∈ pre, r.2 ≠ none) (hs : s.2 = none) :
    loopClients acc (pre ++ s :: post) = s := by
  induction pre generalizing acc with
  | nil => simp [loopClients, hs]
  | cons r rs ih =>
    have hr : r.2 ≠ none := hpre r (List.mem_cons_self r rs)
    simp only [List.cons_append, loopClients, if_neg hr]
    exact ih r fun x hx => hpre x (List.mem_cons_of_mem r hx)

theorem loopClients_all_fail {α : Type} (acc : α × Option Err)
    (rs : List (α × Option Err)) (h : rs ≠ [])
    (hfail : ∀ r ∈ rs, r.2 ≠ none) :
    loopClients acc rs = rs.getLast h := by
  induction rs generalizing acc with
  | nil => exact absurd rfl h
  | cons r rest ih =>
    have hr : r.2 ≠ none := hfail r (List.mem_cons_self r rest)
    cases rest with
    | nil => simp [loopClients, if_neg hr, List.getLast]
    | cons r2 rest2 =>
      rw [List.getLast_cons (by simp)]
      simp only [loopClients, if_neg hr]
      exact ih r (by simp) fun x hx => hfail x (List.mem_cons_of_mem r hx)

/-! ### Retry loop lemmas (shared helpers) -/

theorem callContractLoop_step_success (attempt : Nat → List Nat × Option Err)
    (c i : Nat) (cur : List Nat × Option Err) (hfi : (attempt i).2 = none) :
    callContractLoop attempt (c + 1) i cur = ⟨attempt i, 1, 0⟩ := by
  simp only [callContractLoop, if_pos hfi]

theorem callContractLoop_step_fail (attempt : Nat → List Nat × Option Err)
    (c i : Nat) (cur : List Nat × Option Err) (hfi : (attempt i).2 ≠ none) :
    callContractLoop attempt (c + 1) i cur =
      ⟨(callContractLoop attempt c (i + 1) (attempt i)).result,
       (callContractLoop attempt c (i + 1) (attempt i)).attemptsMade + 1,
       (callContractLoop attempt c (i + 1) (attempt i)).sleeps + 1⟩ := by
  simp only [callContractLoop, if_neg hfi]

theorem getCoinBalanceLoop_step_success (attempt : Nat → Option Int × Option Err)
    (c i : Nat) (cur : Option Int × Option Err) (hfi : (attempt i).2 = none) :
    getCoinBalanceLoop attempt (c + 1) i cur = ⟨attempt i, 1, 0⟩ := by
  simp only [getCoinBalanceLoop, if_pos hfi]

theorem getCoinBalanceLoop_step_fail (attempt : Nat → Option Int × Option Err)
    (c i : Nat) (cur : Option Int × Option Err) (hfi : (attempt i).2 ≠ none) :
    getCoinBalanceLoop attempt (c + 1) i cur =
      ⟨(getCoinBalanceLoop attempt c (i + 1) (attempt i)).result,
       (getCoinBalanceLoop attempt c (i + 1) (attempt i)).attemptsMade + 1,
       (getCoinBalanceLoop attempt c (i + 1) (attempt i)).sleeps⟩ := by
  simp only [getCoinBalanceLoop, if_neg hfi]

theorem callContractLoop_succeeds_at (attempt : Nat → List Nat × Option Err) (k : Nat) :
    ∀ (m i : Nat) (cur : List Nat × Option Err),
    (∀ j, j < k → (attempt (i + j)).2 ≠ none) → (attempt (i + k)).2 = none →
    callContractLoop attempt (k + m + 1) i cur = ⟨attempt (i + k), k + 1, k⟩ := by
  induction k with
  | zero =>
    intro m i cur _ hs
    rw [Nat.zero_add, callContractLoop_step_success attempt m i cur (by simpa using hs)]
    simp
  | succ k ih =>
    intro m i cur hf hs
    have hfi : (attempt i).2 ≠ none := by simpa using hf 0 (Nat.succ_pos k)
    have heq : k + 1 + m + 1 = (k + m + 1) + 1 := by omega
    rw [heq, callContractLoop_step_fail attempt (k + m + 1) i cur hfi,
      ih m (i + 1) (attempt i)
        (fun j hj => by
          have := hf (j + 1) (by omega)
          simpa [Nat.add_assoc, Nat.add_comm 1 j] using this)
        (by simpa [Nat.add_assoc, Nat.add_comm 1 k] using hs)]
    have harith : i + 1 + k = i + (k + 1) := by omega
    simp [harith]

theorem callContractLoop_all_fail (attempt : Nat → List Nat × Option Err) (k : Nat) :
    ∀ (i : Nat) (cur : List Nat × Option Err), 1 ≤ k →
    (∀ j, j < k → (attempt (i + j)).2 ≠ none) →
    callContractLoop attempt k i cur = ⟨attempt (i + k - 1), k, k⟩ := by
  induction k with
  | zero => intro i cur h; omega
  | succ k ih =>
    intro i cur _ hf
    have hfi : (attempt i).2 ≠ none := by simpa using hf 0 (Nat.succ_pos k)
    cases k with
    | zero =>
      rw [callContractLoop_step_fail attempt 0 i cur hfi]
      simp [callContractLoop]
    | succ k2 =>
      rw [callContractLoop_step_fail attempt (k2 + 1) i cur hfi,
        ih (i + 1) (attempt i) (by omega)
          (fun j hj => by
            have := hf (j + 1) (by omega)
            simpa [Nat.add_assoc, Nat.add_comm 1 j] using this)]
      have harith : i + 1 + (k2 + 1) - 1 = i + (k2 + 1 + 1) - 1 := by omega
      simp [harith]

theorem getCoinBalanceLoop_succeeds_at (attempt : Nat → Option Int × Option Err) (k : Nat) :
    ∀ (m i : Nat) (cur : Option Int × Option Err),
    (∀ j, j < k → (attempt (i + j)).2 ≠ none) → (attempt (i + k)).2 = none →
    getCoinBalanceLoop attempt (k + m + 1) i cur = ⟨attempt (i + k), k + 1, 0⟩ := by
  induction k with
  | zero =>
    intro m i cur _ hs
    rw [Nat.zero_add, getCoinBalanceLoop_step_success attempt m i cur (by simpa using hs)]
    simp
  | succ k ih =>
    intro m i cur hf hs
    have hfi : (attempt i).2 ≠ none := by simpa using hf 0 (Nat.succ_pos k)
    have heq : k + 1 + m + 1 = (k + m + 1) + 1 := by omega
    rw [heq, getCoinBalanceLoop_step_fail attempt (k + m + 1) i cur hfi,
      ih m (i + 1) (attempt i)
        (fun j hj => by
          have := hf (j + 1) (by omega)
          simpa [Nat.add_assoc, Nat.add_comm 1 j] using this)
        (by simpa [Nat.add_assoc, Nat.add_comm 1 k] using hs)]
    have harith : i + 1 + k = i + (k + 1) := by omega
    simp [harith]

theorem getCoinBalanceLoop_all_fail (attempt : Nat → Option Int × Option Err) (k : Nat) :
    ∀ (i : Nat) (cur : Option Int × Option Err), 1 ≤ k →
    (∀ j, j < k → (attempt (i + j)).2 ≠ none) →
    getCoinBalanceLoop attempt k i cur = ⟨attempt (i + k - 1), k, 0⟩ := by
  induction k with
  | zero => intro i cur h; omega
  | succ k ih =>
    intro i cur _ hf
    have hfi : (attempt i).2 ≠ none := by simpa using hf 0 (Nat.succ_pos k)
    cases k with
    | zero =>
      rw [getCoinBalanceLoop_step_fail attempt 0 i cur hfi]
      simp [getCoinBalanceLoop]
    | succ k2 =>
      rw [getCoinBalanceLoop_step_fail attempt (k2 + 1) i cur hfi,
        ih (i + 1) (attempt i) (by omega)
          (fun j hj => by
            have := hf (j + 1) (by omega)
            simpa [Nat.add_assoc, Nat.add_comm 1 j] using this)]
      have harith : i + 1 + (k2 + 1) - 1 = i + (k2 + 1 + 1) - 1 := by omega
      simp [harith]

/-! ### Transaction sending lemmas (shared helpers) -/

theorem sendRewardsTransaction_dryRun (args : ResolvedArgs) (account : Address) (reward : Int)
    (rewardToken : Address) (o : SendTxOracle) :
    sendRewardsTransaction args account reward rewardToken true o =
      ⟨none, none, args, none, false, false⟩ := rfl

theorem sendRewardsTransaction_success (args : ResolvedArgs) (account : Address) (reward : Int)
    (rewardToken : Address) (o : SendTxOracle)
    (h1 : o.signFails = false) (h2 : o.sendFails = false) :
    sendRewardsTransaction args account reward rewardToken false o =
      ⟨some o.txHash, none,
       { args with nonce := (reconcileNonce args.nonce o.liveNonce + 1) % 2 ^ 64 },
       some ⟨reconcileNonce args.nonce o.liveNonce, rewardToken, 0, args.gasLimit,
         args.gasPrice, transferCallData account reward⟩,
       true, true⟩ := by
  simp [sendRewardsTransaction, h1, h2]

theorem sendRewardsTransaction_signFail (args : ResolvedArgs) (account : Address) (reward : Int)
    (rewardToken : Address) (o : SendTxOracle) (h1 : o.signFails = true) :
    sendRewardsTransaction args account reward rewardToken false o =
      ⟨none, some "sign tx failed",
       { args with nonce := reconcileNonce args.nonce o.liveNonce },
       some ⟨reconcileNonce args.nonce o.liveNonce, rewardToken, 0, args.gasLimit,
         args.gasPrice, transferCallData account reward⟩,
       true, false⟩ := by
  simp [sendRewardsTransaction, h1]

theorem sendRewardsTransaction_sendFail (args : ResolvedArgs) (account : Address) (reward : Int)
    (rewardToken : Address) (o : SendTxOracle)
    (h1 : o.signFails = false) (h2 : o.sendFails = true) :
    sendRewardsTransaction args account reward rewardToken false o =
      ⟨none, some "send tx failed",
       { args with nonce := reconcileNonce args.nonce o.liveNonce },
       some ⟨reconcileNonce args.nonce o.liveNonce, rewardToken, 0, args.gasLimit,
         args.gasPrice, transferCallData account reward⟩,
       true, true⟩ := by
  simp [sendRewardsTransaction, h1, h2]

/-! ### Pipeline loop lemmas (shared helpers) -/

theorem ledgerOf_length (oracle : Nat → SendTxOracle) :
    ∀ (att : Nat) (ps : List (Address × Int)), (ledgerOf oracle att ps).length = ps.length := by
  intro att ps
  induction ps generalizing att with
  | nil => rfl
  | cons p rest ih => cases p; simp [ledgerOf, ih]

theorem posEntries_nil : posEntries [] = [] := rfl

theorem posEntries_cons_skip (s : AccountStat) (rest : List AccountStat)
    (h : s.reward = none ∨ ∃ r, s.reward = some r ∧ r ≤ 0) :
    posEntries (s :: rest) = posEntries rest := by
  rcases h with h | ⟨r, hr, hle⟩
  · simp [posEntries, List.filterMap_cons, h]
  · simp [posEntries, List.filterMap_cons, hr, if_pos hle]

theorem posEntries_cons_pos (s : AccountStat) (rest : List AccountStat) (r : Int)
    (hr : s.reward = some r) (hpos : 0 < r) :
    posEntries (s :: rest) = (s.account, r) :: posEntries rest := by
  simp [posEntries, List.filterMap_cons, hr, if_neg (not_le.mpr hpos)]

/-- Skipped entries (nil, zero or negative reward) are complete no-ops of
the run loop: the loop computes the same result on the filtered batch. -/
theorem runRewardsLoop_filterPositive (dryRun canSaveDB : Bool) (tok : Address) (tv : Int)
    (oracle : Nat → SendTxOracle) :
    ∀ (stats : List AccountStat) (args : ResolvedArgs) (ledger : List LedgerLine)
      (sended : Int) (att sg sub : Nat),
    runRewardsLoop dryRun canSaveDB tok tv oracle stats args ledger sended att sg sub =
      runRewardsLoop dryRun canSaveDB tok tv oracle (filterPositive stats) args ledger
        sended att sg sub := by
  intro stats
  induction stats with
  | nil => intro args ledger sended att sg sub; rfl
  | cons s rest ih =>
    intro args ledger sended att sg sub
    cases hrw : s.reward with
    | none =>
      have hf : filterPositive (s :: rest) = filterPositive rest := by
        simp [filterPositive, List.filter_cons, hrw]
      rw [hf, ← ih args ledger sended att sg sub]
      simp [runRewardsLoop, hrw]
    | some r =>
      by_cases hle : r ≤ 0
      · have hf : filterPositive (s :: rest) = filterPositive rest := by
          simp [filterPositive, List.filter_cons, hrw, not_lt.mpr hle]
        rw [hf, ← ih args ledger sended att sg sub]
        simp [runRewardsLoop, hrw, if_pos hle]
      · have hpos : 0 < r := not_le.mp hle
        have hf : filterPositive (s :: rest) = s :: filterPositive rest := by
          simp [filterPositive, List.filter_cons, hrw, hpos]
        rw [hf]
        simp only [runRewardsLoop, hrw, if_neg hle]
        cases herr : (sendRewardsTransaction args s.account r tok dryRun (oracle att)).err with
        | none => simp only [herr]; exact ih _ _ _ _ _ _
        | some e => simp only [herr]

/-- All positive entries of a dry run succeed, each appending a hashless
ledger line; nothing is signed or submitted and the builder state is
untouched. -/
theorem runRewardsLoop_dryRun (canSaveDB : Bool) (tok : Address) (tv : Int)
    (oracle : Nat → SendTxOracle) :
    ∀ (stats : List AccountStat) (args : ResolvedArgs) (ledger : List LedgerLine)
      (sended : Int) (att sg sub : Nat),
    runRewardsLoop true canSaveDB tok tv oracle stats args ledger sended att sg sub =
      ⟨args, ledger ++ (posEntries stats).map (fun p => ⟨p.1, p.2, none⟩),
       sended + sumRewards (posEntries stats), att + (posEntries stats).length, sg, sub,
       none, ⟨tv, sended + sumRewards (posEntries stats)⟩⟩ := by
  intro stats
  induction stats with
  | nil =>
    intro args ledger sended att sg sub
    simp [runRewardsLoop, posEntries_nil, sumRewards]
  | cons s rest ih =>
    intro args ledger sended att sg sub
    cases hrw : s.reward with
    | none =>
      rw [posEntries_cons_skip s rest (Or.inl hrw)]
      simp only [runRewardsLoop, hrw]
      exact ih _ _ _ _ _ _
    | some r =>
      by_cases hle : r ≤ 0
      · rw [posEntries_cons_skip s rest (Or.inr ⟨r, hrw, hle⟩)]
        simp only [runRewardsLoop, hrw, if_pos hle]
        exact ih _ _ _ _ _ _
      · have hpos : 0 < r := not_le.mp hle
        rw [posEntries_cons_pos s rest r hrw hpos]
        simp only [runRewardsLoop, hrw, if_neg hle,
          sendRewardsTransaction_dryRun args s.account r tok (oracle att)]
        rw [ih]
        simp [sumRewards, List.map_cons]
        constructor
        · ring
        · constructor
          · omega
          · ring

theorem ledgerOf_cons (oracle : Nat → SendTxOracle) (att : Nat) (a : Address) (r : Int)
    (l : List (Address × Int)) :
    ledgerOf oracle att ((a, r) :: l) =
      ⟨a, r, some (oracle att).txHash⟩ :: ledgerOf oracle (att + 1) l := rfl

theorem sumRewards_nil : sumRewards [] = 0 := rfl

theorem sumRewards_cons (a : Address) (r : Int) (l : List (Address × Int)) :
    sumRewards ((a, r) :: l) = r + sumRewards l := by
  simp [sumRewards]

/-- Fail-fast behaviour of the run loop: if the first `k` attempted sends
succeed and the `(k+1)`-th fails, the run returns the send error having
appended exactly one ledger line per success, having attempted exactly
`k + 1` sends, and reporting the rewards sent so far against the batch
total. -/
theorem runRewardsLoop_fail_at (canSaveDB : Bool) (tok : Address) (tv : Int)
    (oracle : Nat → SendTxOracle) :
    ∀ (stats : List AccountStat) (k : Nat) (args : ResolvedArgs) (ledger : List LedgerLine)
      (sended : Int) (att sg sub : Nat),
    (∀ i, i < k → goodAttempt (oracle (att + i))) →
    badAttempt (oracle (att + k)) →
    k < (posEntries stats).length →
    ∃ argsF sgF subF,
      runRewardsLoop false canSaveDB tok tv oracle stats args ledger sended att sg sub =
        ⟨argsF, ledger ++ ledgerOf oracle att ((posEntries stats).take k),
         sended + sumRewards ((posEntries stats).take k), att + k + 1, sgF, subF,
         some "[sendRewards] send tx failed",
         ⟨tv, sended + sumRewards ((posEntries stats).take k)⟩⟩ := by
  intro stats
  induction stats with
  | nil =>
    intro k args ledger sended att sg sub _ _ hk
    rw [posEntries_nil] at hk
    exact absurd hk (by simp)
  | cons s rest ih =>
    intro k args ledger sended att sg sub hg hb hk
    cases hrw : s.reward with
    | none =>
      rw [posEntries_cons_skip s rest (Or.inl hrw)] at hk ⊢
      simp only [runRewardsLoop, hrw]
      exact ih k args ledger sended att sg sub hg hb hk
    | some r =>
      by_cases hle : r ≤ 0
      · rw [posEntries_cons_skip s rest (Or.inr ⟨r, hrw, hle⟩)] at hk ⊢
        simp only [runRewardsLoop, hrw, if_pos hle]
        exact ih k args ledger sended att sg sub hg hb hk
      · have hpos : 0 < r := not_le.mp hle
        rw [posEntries_cons_pos s rest r hrw hpos] at hk ⊢
        cases k with
        | zero =>
          have hb2 : (oracle att).signFails = true ∨ (oracle att).sendFails = true := by
            have : badAttempt (oracle (att + 0)) := hb
            simpa [badAttempt] using this
          by_cases hsf : (oracle att).signFails = true
          · refine ⟨{ args with nonce := reconcileNonce args.nonce (oracle att).liveNonce },
              sg + 1, sub + 0, ?_⟩
            simp only [runRewardsLoop, hrw, if_neg hle,
              sendRewardsTransaction_signFail args s.account r tok (oracle att) hsf]
            simp [ledgerOf, sumRewards_nil]
          · have hsf2 : (oracle att).signFails = false := by simpa using hsf
            have hdf : (oracle att).sendFails = true := by
              rcases hb2 with h | h
              · exact absurd h hsf
              · exact h
            refine ⟨{ args with nonce := reconcileNonce args.nonce (oracle att).liveNonce },
              sg + 1, sub + 1, ?_⟩
            simp only [runRewardsLoop, hrw, if_neg hle,
              sendRewardsTransaction_sendFail args s.account r tok (oracle att) hsf2 hdf]
            simp [ledgerOf, sumRewards_nil]
        | succ k =>
          have hgood : goodAttempt (oracle att) := by
            have := hg 0 (Nat.succ_pos k)
            simpa using this
          have h1 : (oracle att).signFails = false := hgood.1
          have h2 : (oracle att).sendFails = false := hgood.2
          simp only [runRewardsLoop, hrw, if_neg hle,
            sendRewardsTransaction_success args s.account r tok (oracle att) h1 h2]
          norm_num
          have hg2 : ∀ i, i < k → goodAttempt (oracle (att + 1 + i)) := by
            intro i hi
            rw [show att + 1 + i = att + (i + 1) by omega]
            exact hg (i + 1) (by omega)
          have hb2 : badAttempt (oracle (att + 1 + k)) := by
            rw [show att + 1 + k = att + (k + 1) by omega]
            exact hb
          have hk2 : k < (posEntries rest).length := by
            simpa using Nat.lt_of_succ_lt_succ hk
          obtain ⟨argsF, sgF, subF, hrec⟩ :=
            ih k { args with nonce := (reconcileNonce args.nonce (oracle att).liveNonce + 1) % 2 ^ 64 }
              (ledger ++ [⟨s.account, r, some (oracle att).txHash⟩]) (sended + r)
              (att + 1) (sg + 1) (sub + 1) hg2 hb2 hk2
          refine ⟨argsF, sgF, subF, ?_⟩
          norm_num at hrec
          rw [hrec]
          simp only [List.take_succ_cons, ledgerOf_cons, sumRewards_cons]
          have harith : att + 1 + k + 1 = att + (k + 1) + 1 := by omega
          simp [List.append_assoc, add_assoc, harith]
          omega

/-! ### Parameter resolution lemmas (shared helpers) -/

theorem setDefaultsLoop_step (q : DefaultsQueries) (fuel ci ni gi : Nat) (s : DefaultsState) :
    setDefaultsLoop q (fuel + 1) ci ni gi s =
      match iterChainID q ci ni gi s with
      | Sum.inr s2 => (some s2, 0)
      | Sum.inl (s2, ci2, ni2, gi2) => setDefaultsLoop q fuel ci2 ni2 gi2 s2 := rfl

theorem setDefaults_stageGP (q : DefaultsQueries) (pv : Int) :
    ∀ (cs gi ci ni : Nat) (s : DefaultsState) (cid0 : Int) (n0 : Nat),
    (∀ i, i < cs → q.gasPriceAt (gi + i) = none) →
    q.gasPriceAt (gi + cs) = some pv →
    s.chainID = some cid0 → s.nonce = some n0 → s.gasPrice = none →
    setDefaultsLoop q (cs + 1) ci ni gi s =
      (some (finishGasLimit { s with gasPrice := some pv }), 0) := by
  intro cs
  induction cs with
  | zero =>
    intro gi ci ni s cid0 n0 _ hs hcid hnon hgp
    have hs2 : q.gasPriceAt gi = some pv := by simpa using hs
    rw [setDefaultsLoop_step]
    have hi : iterChainID q ci ni gi s =
        Sum.inr (finishGasLimit { s with gasPrice := some pv }) := by
      simp [iterChainID, iterNonce, iterGasPrice, hcid, hnon, hgp, hs2]
    rw [hi]
  | succ cs ih =>
    intro gi ci ni s cid0 n0 hf hs hcid hnon hgp
    have hf0 : q.gasPriceAt gi = none := by simpa using hf 0 (Nat.succ_pos cs)
    rw [setDefaultsLoop_step]
    have hi : iterChainID q ci ni gi s = Sum.inl (s, ci, ni, gi + 1) := by
      simp [iterChainID, iterNonce, iterGasPrice, hcid, hnon, hgp, hf0]
    rw [hi]
    exact ih (gi + 1) ci ni s cid0 n0
      (fun i hi2 => by
        have := hf (i + 1) (by omega)
        simpa [Nat.add_assoc, Nat.add_comm 1 i] using this)
      (by
        have := hs
        rw [show gi + (cs + 1) = gi + 1 + cs by omega] at this
        exact this)
      hcid hnon hgp

theorem setDefaults_stageNonce (q : DefaultsQueries) (nv : Nat) (pv : Int) (c : Nat)
    (hgf : ∀ i, i < c → q.gasPriceAt i = none) (hgs : q.gasPriceAt c = some pv) :
    ∀ (bs ni ci : Nat) (s : DefaultsState) (cid0 : Int),
    (∀ i, i < bs → q.nonceAt (ni + i) = none) → q.nonceAt (ni + bs) = some nv →
    s.chainID = some cid0 → s.nonce = none → s.gasPrice = none →
    setDefaultsLoop q (bs + c + 1) ci ni 0 s =
      (some (finishGasLimit { s with nonce := some nv, gasPrice := some pv }), 0) := by
  intro bs
  induction bs with
  | zero =>
    intro ni ci s cid0 _ hns hcid hnon hgp
    have hns2 : q.nonceAt ni = some nv := by simpa using hns
    simp only [Nat.zero_add]
    cases c with
    | zero =>
      rw [setDefaultsLoop_step]
      have hi : iterChainID q ci ni 0 s =
          Sum.inr (finishGasLimit { s with nonce := some nv, gasPrice := some pv }) := by
        simp [iterChainID, iterNonce, iterGasPrice, hcid, hnon, hns2, hgp, hgs]
      rw [hi]
    | succ c2 =>
      rw [setDefaultsLoop_step]
      have hg0 : q.gasPriceAt 0 = none := hgf 0 (Nat.succ_pos c2)
      have hi : iterChainID q ci ni 0 s =
          Sum.inl ({ s with nonce := some nv }, ci, ni + 1, 1) := by
        simp [iterChainID, iterNonce, iterGasPrice, hcid, hnon, hns2, hgp, hg0]
      rw [hi]
      exact setDefaults_stageGP q pv c2 1 ci (ni + 1) { s with nonce := some nv } cid0 nv
        (fun i hi2 => by
          have := hgf (i + 1) (by omega)
          simpa [Nat.add_comm 1 i] using this)
        (by
          have := hgs
          rw [show (c2 + 1 : Nat) = 1 + c2 by omega] at this
          exact this)
        (by simp [hcid]) (by simp) (by simpa using hgp)
  | succ bs ih =>
    intro ni ci s cid0 hnf hns hcid hnon hgp
    have hn0 : q.nonceAt ni = none := by simpa using hnf 0 (Nat.succ_pos bs)
    have heq : bs + 1 + c + 1 = (bs + c + 1) + 1 := by omega
    rw [heq, setDefaultsLoop_step]
    have hi : iterChainID q ci ni 0 s = Sum.inl (s, ci, ni + 1, 0) := by
      simp [iterChainID, iterNonce, hcid, hnon, hn0]
    rw [hi]
    exact ih (ni + 1) ci s cid0
      (fun i hi2 => by
        have := hnf (i + 1) (by omega)
        simpa [Nat.add_assoc, Nat.add_comm 1 i] using this)
      (by
        have := hns
        rw [show ni + (bs + 1) = ni + 1 + bs by omega] at this
        exact this)
      hcid hnon hgp

theorem setDefaults_stageCID (q : DefaultsQueries) (cv : Int) (nv : Nat) (pv : Int) (b c : Nat)
    (hnf : ∀ i, i < b → q.nonceAt i = none) (hns : q.nonceAt b = some nv)
    (hgf : ∀ i, i < c → q.gasPriceAt i = none) (hgs : q.gasPriceAt c = some pv) :
    ∀ (a2 ci : Nat) (s : DefaultsState),
    (∀ i, i < a2 → q.chainIDAt (ci + i) = none) → q.chainIDAt (ci + a2) = some cv →
    s.chainID = none → s.nonce = none → s.gasPrice = none →
    setDefaultsLoop q (a2 + b + c + 1) ci 0 0 s =
      (some (finishGasLimit { s with chainID := some cv, chainSigner := some (newEIP155Signer cv), nonce := some nv, gasPrice := some pv }), 0) := by
  intro a2
  induction a2 with
  | zero =>
    intro ci s hcf hcs hcid hnon hgp
    have hcs2 : q.chainIDAt ci = some cv := by simpa using hcs
    simp only [Nat.zero_add]
    cases b with
    | zero =>
      have hns2 : q.nonceAt 0 = some nv := hns
      simp only [Nat.zero_add]
      cases c with
      | zero =>
        rw [setDefaultsLoop_step]
        have hi : iterChainID q ci 0 0 s =
            Sum.inr (finishGasLimit { s with chainID := some cv, chainSigner := some (newEIP155Signer cv), nonce := some nv, gasPrice := some pv }) := by
          simp [iterChainID, iterNonce, iterGasPrice, hcid, hcs2, hnon, hns2, hgp, hgs]
        rw [hi]
      | succ c2 =>
        rw [setDefaultsLoop_step]
        have hg0 : q.gasPriceAt 0 = none := hgf 0 (Nat.succ_pos c2)
        have hi : iterChainID q ci 0 0 s =
            Sum.inl ({ s with chainID := some cv, chainSigner := some (newEIP155Signer cv), nonce := some nv }, ci + 1, 1, 1) := by
          simp [iterChainID, iterNonce, iterGasPrice, hcid, hcs2, hnon, hns2, hgp, hg0]
        rw [hi]
        exact setDefaults_stageGP q pv c2 1 (ci + 1) 1
          { s with chainID := some cv, chainSigner := some (newEIP155Signer cv), nonce := some nv } cv nv
          (fun i hi2 => by
            have := hgf (i + 1) (by omega)
            simpa [Nat.add_comm 1 i] using this)
          (by
            have := hgs
            rw [show (c2 + 1 : Nat) = 1 + c2 by omega] at this
            exact this)
          (by simp) (by simp) (by simpa using hgp)
    | succ b2 =>
      have hn0 : q.nonceAt 0 = none := hnf 0 (Nat.succ_pos b2)
      have heq : b2 + 1 + c + 1 = (b2 + c + 1) + 1 := by omega
      rw [heq, setDefaultsLoop_step]
      have hi : iterChainID q ci 0 0 s =
          Sum.inl ({ s with chainID := some cv, chainSigner := some (newEIP155Signer cv) }, ci + 1, 1, 0) := by
        simp [iterChainID, iterNonce, hcid, hcs2, hnon, hn0]
      rw [hi]
      exact setDefaults_stageNonce q nv pv c hgf hgs b2 1 (ci + 1)
        { s with chainID := some cv, chainSigner := some (newEIP155Signer cv) } cv
        (fun i hi2 => by
          have := hnf (i + 1) (by omega)
          simpa [Nat.add_comm 1 i] using this)
        (by
          have := hns
          rw [show (b2 + 1 : Nat) = 1 + b2 by omega] at this
          exact this)
        (by simp) (by simpa using hnon) (by simpa using hgp)
  | succ a2 ih =>
    intro ci s hcf hcs hcid hnon hgp
    have hc0 : q.chainIDAt ci = none := by simpa using hcf 0 (Nat.succ_pos a2)
    have heq : a2 + 1 + b + c + 1 = (a2 + b + c + 1) + 1 := by omega
    rw [heq, setDefaultsLoop_step]
    have hi : iterChainID q ci 0 0 s = Sum.inl (s, ci + 1, 0, 0) := by
      simp [iterChainID, hcid, hc0]
    rw [hi]
    exact ih (ci + 1) s
      (fun i hi2 => by
        have := hcf (i + 1) (by omega)
        simpa [Nat.add_assoc, Nat.add_comm 1 i] using this)
      (by
        have := hcs
        rw [show ci + (a2 + 1) = ci + 1 + a2 by omega] at this
        exact this)
      hcid hnon hgp

/-! ## Claim theorems -/

/-- C3: for every non-empty ordered list of connected endpoints, each
single-pass gateway operation attempts endpoints in list order and returns
the result of the first endpoint that succeeds — independent of anything
after it — and when every endpoint fails it returns the last endpoint's
error. The balance, nonce, gas-price, chain-id, header, contract-call and
submission operations are all instances of `tryEach` with their zero
values. -/
theorem gateway_first_success_or_last_error :
    (∀ (α : Type) (dflt : α) (pre post : List (α × Option Err)) (s : α × Option Err),
      (∀ r ∈ pre, r.2 ≠ none) → s.2 = none →
      tryEach dflt (pre ++ s :: post) = s) ∧
    (∀ (α : Type) (dflt : α) (rs : List (α × Option Err)) (h : rs ≠ []),
      (∀ r ∈ rs, r.2 ≠ none) → tryEach dflt rs = rs.getLast h) ∧
    (∀ l, BalanceAt l = tryEach none l) ∧
    (∀ l, GetAccountNonce l = tryEach 0 l) ∧
    (∀ l, SendTransaction l = tryEach () l) ∧
    (∀ l, GetChainID l = tryEach none l) ∧
    (∀ l, SuggestGasPrice l = tryEach none l) ∧
    (∀ l, DoCall l = tryEach [] l) ∧
    (∀ l, HeaderByNumber l = tryEach none l) := by
  refine ⟨?_, ?_, fun l => rfl, fun l => rfl, fun l => rfl, fun l => rfl, fun l => rfl,
    fun l => rfl, fun l => rfl⟩
  · intro α dflt pre post s hpre hs
    exact loopClients_first_success (dflt, none) pre post s hpre hs
  · intro α dflt rs h hfail
    exact loopClients_all_fail (dflt, none) rs h hfail

/-- C3 witness: with the second of three endpoints the first healthy one,
the nonce query returns its result; with two failing endpoints it returns
the second (last) error. -/
theorem gateway_first_success_or_last_error_witness :
    tryEach (0 : Nat) [(5, some "a"), (7, none), (9, some "b")] = (7, none) ∧
    tryEach (0 : Nat) [(5, some "a"), (6, some "b")] = (6, some "b") := by
  constructor
  · exact gateway_first_success_or_last_error.1 Nat 0 [(5, some "a")] [(9, some "b")]
      (7, none) (by decide) rfl
  · exact gateway_first_success_or_last_error.2.1 Nat 0 [(5, some "a"), (6, some "b")]
      (by decide) (by decide)

/-- C10: with an empty connected-client list every endpoint-iterating
operation returns its zero value and a nil error; in particular a
submission through an empty gateway "succeeds", a nonce query returns 0
with no error, and a subsequent `sendRewardsTransaction` therefore treats
the submission as successful and advances the cached nonce. -/
theorem empty_gateway_reports_success :
    (∀ (α : Type) (dflt : α), tryEach dflt ([] : List (α × Option Err)) = (dflt, none)) ∧
    SendTransaction [] = ((), none) ∧
    GetAccountNonce [] = (0, none) ∧
    (∀ (args : ResolvedArgs) (account rewardToken : Address) (reward : Int) (h : Nat),
      args.nonce + 1 < 2 ^ 64 →
      (sendRewardsTransaction args account reward rewardToken false
        ⟨some 0, false, false, h⟩).err = none ∧
      (sendRewardsTransaction args account reward rewardToken false
        ⟨some 0, false, false, h⟩).args.nonce = args.nonce + 1) := by
  refine ⟨fun α dflt => rfl, rfl, rfl, ?_⟩
  intro args account rewardToken reward h hb
  rw [sendRewardsTransaction_success args account reward rewardToken
    ⟨some 0, false, false, h⟩ rfl rfl]
  have hrec : reconcileNonce args.nonce (some 0) = args.nonce := by
    simp [reconcileNonce]
  refine ⟨rfl, ?_⟩
  show (reconcileNonce args.nonce (some 0) + 1) % 2 ^ 64 = args.nonce + 1
  rw [hrec, Nat.mod_eq_of_lt hb]

/-- C10 witness: a concrete builder with cached nonce 7, fed the
empty-gateway results (live nonce 0, successful submission), reports no
error and advances the nonce to 8. -/
theorem empty_gateway_reports_success_witness :
    7 + 1 < 2 ^ 64 ∧
    (sendRewardsTransaction exampleArgs (addrOf 1) 5 (addrOf 2) false
      ⟨some 0, false, false, 3⟩).err = none ∧
    (sendRewardsTransaction exampleArgs (addrOf 1) 5 (addrOf 2) false
      ⟨some 0, false, false, 3⟩).args.nonce = 7 + 1 := by
  have hb : (7 : Nat) + 1 < 2 ^ 64 := by norm_num
  have h := empty_gateway_reports_success.2.2.2 exampleArgs (addrOf 1) (addrOf 2) 5 3 hb
  exact ⟨hb, h.1, h.2⟩

/-- C4 counterexample: with retry count `n = 2` and a coin-balance query
stream that fails once then succeeds, `GetCoinBalance` makes 2 attempts
but sleeps 0 times, not the `n − 1 = 1` the claim asserts for every
retried read operation. -/
theorem coin_balance_retry_never_sleeps :
    (GetCoinBalance 2 coinAttemptFailOnce).result = (some 5, none) ∧
    (GetCoinBalance 2 coinAttemptFailOnce).attemptsMade = 2 ∧
    (GetCoinBalance 2 coinAttemptFailOnce).sleeps = 0 ∧
    (GetCoinBalance 2 coinAttemptFailOnce).sleeps ≠ 2 - 1 := by decide

/-- C4 amended: for retry count `n ≥ 1`, a read operation failing on the
first `n − 1` attempts and succeeding on the `n`-th returns the success
value and makes exactly `n` attempts; `CallContract` sleeps exactly
`n − 1` times between attempts, while `GetCoinBalance` retries with no
sleep at all. -/
theorem retry_reads_return_nth_success (n : Nat)
    (attB : Nat → Option Int × Option Err) (attC : Nat → List Nat × Option Err)
    (hn : 1 ≤ n)
    (hBf : ∀ i, i < n - 1 → (attB i).2 ≠ none) (hBs : (attB (n - 1)).2 = none)
    (hCf : ∀ i, i < n - 1 → (attC i).2 ≠ none) (hCs : (attC (n - 1)).2 = none) :
    GetCoinBalance n attB = ⟨((attB (n - 1)).1, none), n, 0⟩ ∧
    CallContract n attC = ⟨attC (n - 1), n, n - 1⟩ := by
  obtain ⟨m, rfl⟩ : ∃ m, n = m + 1 := ⟨n - 1, by omega⟩
  simp only [Nat.add_sub_cancel] at hBf hBs hCf hCs ⊢
  constructor
  · have hl := getCoinBalanceLoop_succeeds_at attB m 0 0 (none, none)
      (fun j hj => by simpa using hBf j hj) (by simpa using hBs)
    simp only [Nat.zero_add, Nat.add_zero] at hl
    unfold GetCoinBalance
    rw [hl]
    simp [hBs]
  · have hl := callContractLoop_succeeds_at attC m 0 0 ([], none)
      (fun j hj => by simpa using hCf j hj) (by simpa using hCs)
    simp only [Nat.zero_add, Nat.add_zero] at hl
    unfold CallContract
    rw [hl]

/-- C4 witness: retry count 2, first attempt failing, second succeeding,
for both the coin-balance query and the generic contract call. -/
theorem retry_reads_return_nth_success_witness :
    GetCoinBalance 2 coinAttemptFailOnce = ⟨(some 5, none), 2, 0⟩ ∧
    CallContract 2 callAttemptFailOnce = ⟨([1], none), 2, 1⟩ := by
  have h := retry_reads_return_nth_success 2 coinAttemptFailOnce callAttemptFailOnce
    (by omega) (by decide) (by decide) (by decide) (by decide)
  exact ⟨h.1, h.2⟩

/-- C8 counterexample: when every attempt of the underlying contract call
fails, the token-address and factory-address queries do not return the
error — their signatures have no error result — but substitute the zero
address, indistinguishable from a successful call that returned an
all-zero word. -/
theorem address_queries_swallow_errors :
    GetExchangeTokenAddress 3 callAttemptsAllFail = zeroAddress ∧
    GetExchangeFactoryAddress 3 callAttemptsAllFail = zeroAddress ∧
    GetExchangeTokenAddress 3 callAttemptsAllFail =
      GetExchangeTokenAddress 3 callAttemptsZeroWord := by decide

/-- C8 amended: when the underlying gateway call fails on every attempt,
the coin-balance, token-balance, total-supply, name, symbol and decimals
queries return the last error unchanged, while the token-address and
factory-address queries swallow the error and return the zero address. -/
theorem contract_queries_propagate_errors (n : Nat) (hn : 1 ≤ n)
    (att : Nat → List Nat × Option Err) (e : Err)
    (hf : ∀ i, i < n → (att i).2 ≠ none) (hl : (att (n - 1)).2 = some e)
    (attB : Nat → Option Int × Option Err)
    (hfB : ∀ i, i < n → (attB i).2 ≠ none) (hlB : (attB (n - 1)).2 = some e)
    (unpack : List Nat → String × Option Err) :
    GetTokenTotalSupply n att = (none, some e) ∧
    GetTokenBalance n att = (none, some e) ∧
    GetErc20Name unpack n att = ("", some e) ∧
    GetErc20Symbol unpack n att = ("", some e) ∧
    GetErc20Decimals n att = (0, some e) ∧
    GetCoinBalance n attB = ⟨(none, some e), n, 0⟩ ∧
    GetExchangeTokenAddress n att = zeroAddress ∧
    GetExchangeFactoryAddress n att = zeroAddress := by
  obtain ⟨m, rfl⟩ : ∃ m, n = m + 1 := ⟨n - 1, by omega⟩
  simp only [Nat.add_sub_cancel] at hl hlB
  have hcc : CallContract (m + 1) att = ⟨att m, m + 1, m + 1⟩ := by
    have h := callContractLoop_all_fail att (m + 1) 0 ([], none) (by omega)
      (fun j hj => by simpa using hf j hj)
    simp only [Nat.zero_add, Nat.add_sub_cancel] at h
    exact h
  have hgb : getCoinBalanceLoop attB (m + 1) 0 (none, none) = ⟨attB m, m + 1, 0⟩ := by
    have h := getCoinBalanceLoop_all_fail attB (m + 1) 0 (none, none) (by omega)
      (fun j hj => by simpa using hfB j hj)
    simp only [Nat.zero_add, Nat.add_sub_cancel] at h
    exact h
  refine ⟨?_, ?_, ?_, ?_, ?_, ?_, ?_, ?_⟩
  · unfold GetTokenTotalSupply
    rw [hcc]
    simp [hl]
  · unfold GetTokenBalance
    rw [hcc]
    simp [hl]
  · unfold GetErc20Name
    rw [hcc]
    simp [hl]
  · unfold GetErc20Symbol
    rw [hcc]
    simp [hl]
  · unfold GetErc20Decimals
    rw [hcc]
    simp [hl]
  · unfold GetCoinBalance
    rw [hgb]
    simp [hlB]
  · unfold GetExchangeTokenAddress
    rw [hcc]
    simp [hl]
  · unfold GetExchangeFactoryAddress
    rw [hcc]
    simp [hl]

/-- C8 witness: three failing attempts with error "boom": the total-supply
query returns the error unchanged, the coin-balance query likewise, the
token-address query returns the zero address. -/
theorem contract_queries_propagate_errors_witness :
    GetTokenTotalSupply 3 callAttemptsAllFail = (none, some "boom") ∧
    GetCoinBalance 3 coinAttemptsAllFail = ⟨(none, some "boom"), 3, 0⟩ ∧
    GetExchangeTokenAddress 3 callAttemptsAllFail = zeroAddress := by
  have h := contract_queries_propagate_errors 3 (by omega) callAttemptsAllFail "boom"
    (by decide) (by decide) coinAttemptsAllFail (by decide) (by decide)
    (fun _ => ("", none))
  exact ⟨h.1, h.2.2.2.2.2.1, h.2.2.2.2.2.2.1⟩

/-- C2: every non-dry-run `sendRewardsTransaction` call leaves the chain
identifier, signer, gas price, gas limit (and sender address) unchanged;
the transaction it builds uses the cached nonce replaced by the live value
exactly when the live query succeeded with a strictly greater value; and
after a successful sign and submission the cached nonce equals the used
value plus one. -/
theorem sendtx_nonce_reconciliation (args : ResolvedArgs) (account : Address)
    (reward : Int) (rewardToken : Address) (o : SendTxOracle)
    (hb : reconcileNonce args.nonce o.liveNonce + 1 < 2 ^ 64) :
    ((sendRewardsTransaction args account reward rewardToken false o).args.chainID =
        args.chainID ∧
     (sendRewardsTransaction args account reward rewardToken false o).args.chainSigner =
        args.chainSigner ∧
     (sendRewardsTransaction args account reward rewardToken false o).args.gasPrice =
        args.gasPrice ∧
     (sendRewardsTransaction args account reward rewardToken false o).args.gasLimit =
        args.gasLimit ∧
     (sendRewardsTransaction args account reward rewardToken false o).args.fromAddr =
        args.fromAddr) ∧
    (∃ tx, (sendRewardsTransaction args account reward rewardToken false o).builtTx =
        some tx ∧
      tx.nonce = reconcileNonce args.nonce o.liveNonce ∧ tx.toAddr = rewardToken ∧
      tx.value = 0 ∧ tx.gasLimit = args.gasLimit ∧ tx.gasPrice = args.gasPrice) ∧
    (∀ live, o.liveNonce = some live → args.nonce < live →
      reconcileNonce args.nonce o.liveNonce = live) ∧
    (∀ live, o.liveNonce = some live → ¬ args.nonce < live →
      reconcileNonce args.nonce o.liveNonce = args.nonce) ∧
    (o.liveNonce = none → reconcileNonce args.nonce o.liveNonce = args.nonce) ∧
    (o.signFails = false → o.sendFails = false →
      (sendRewardsTransaction args account reward rewardToken false o).err = none ∧
      (sendRewardsTransaction args account reward rewardToken false o).args.nonce =
        reconcileNonce args.nonce o.liveNonce + 1) := by
  have hlive1 : ∀ live, o.liveNonce = some live → args.nonce < live →
      reconcileNonce args.nonce o.liveNonce = live := by
    intro live hlv hlt
    simp [reconcileNonce, hlv, hlt]
  have hlive2 : ∀ live, o.liveNonce = some live → ¬ args.nonce < live →
      reconcileNonce args.nonce o.liveNonce = args.nonce := by
    intro live hlv hlt
    simp [reconcileNonce, hlv, hlt]
  have hlive3 : o.liveNonce = none → reconcileNonce args.nonce o.liveNonce = args.nonce := by
    intro hlv
    simp [reconcileNonce, hlv]
  cases hsf : o.signFails with
  | true =>
    rw [sendRewardsTransaction_signFail args account reward rewardToken o hsf]
    refine ⟨⟨rfl, rfl, rfl, rfl, rfl⟩, ⟨_, rfl, rfl, rfl, rfl, rfl, rfl⟩,
      hlive1, hlive2, hlive3, ?_⟩
    intro h1 _
    exact absurd h1 (by simp [hsf])
  | false =>
    cases hdf : o.sendFails with
    | true =>
      rw [sendRewardsTransaction_sendFail args account reward rewardToken o hsf hdf]
      refine ⟨⟨rfl, rfl, rfl, rfl, rfl⟩, ⟨_, rfl, rfl, rfl, rfl, rfl, rfl⟩,
        hlive1, hlive2, hlive3, ?_⟩
      intro _ h2
      exact absurd h2 (by simp [hdf])
    | false =>
      rw [sendRewardsTransaction_success args account reward rewardToken o hsf hdf]
      refine ⟨⟨rfl, rfl, rfl, rfl, rfl⟩, ⟨_, rfl, rfl, rfl, rfl, rfl, rfl⟩,
        hlive1, hlive2, hlive3, ?_⟩
      intro _ _
      refine ⟨rfl, ?_⟩
      show (reconcileNonce args.nonce o.liveNonce + 1) % 2 ^ 64 =
        reconcileNonce args.nonce o.liveNonce + 1
      exact Nat.mod_eq_of_lt hb

/-- C2 witness: cached nonce 7, live query returning 9, sign and
submission succeeding: the transaction is built with nonce 9 and the
cached nonce becomes 10. -/
theorem sendtx_nonce_reconciliation_witness :
    reconcileNonce exampleArgs.nonce oracleLive9.liveNonce + 1 < 2 ^ 64 ∧
    (sendRewardsTransaction exampleArgs (addrOf 1) 5 (addrOf 2) false oracleLive9).builtTx.map
      RawTx.nonce = some 9 ∧
    (sendRewardsTransaction exampleArgs (addrOf 1) 5 (addrOf 2) false oracleLive9).args.nonce =
      10 ∧
    (sendRewardsTransaction exampleArgs (addrOf 1) 5 (addrOf 2) false oracleLive9).args.gasPrice =
      exampleArgs.gasPrice := by
  have hb : reconcileNonce exampleArgs.nonce oracleLive9.liveNonce + 1 < 2 ^ 64 := by decide
  have h := sendtx_nonce_reconciliation exampleArgs (addrOf 1) 5 (addrOf 2) oracleLive9 hb
  obtain ⟨tx, htx, hnonce, _⟩ := h.2.1
  refine ⟨hb, ?_, ?_, h.1.2.2.1⟩
  · rw [htx]
    show some tx.nonce = some 9
    rw [hnonce]
    decide
  · rw [(h.2.2.2.2.2 rfl rfl).2]
    decide

/-- C7 counterexample: in dry-run mode, with a keystore that decrypts
successfully to an address different from the caller-supplied sender, the
argument check still fails with the sender-mismatch error — the mismatch
is not tolerated. -/
theorem check_dry_run_mismatch_still_fails :
    Check true (some (addrOf 1)) (some (addrOf 2)) = Except.error "sender mismatch" ∧
    ∀ out, Check true (some (addrOf 1)) (some (addrOf 2)) ≠ Except.ok out := by
  constructor
  · rfl
  · intro out h
    rw [show Check true (some (addrOf 1)) (some (addrOf 2)) =
      Except.error "sender mismatch" from rfl] at h
    exact absurd h (by simp)

/-- C7 amended: a caller-supplied sender differing from the successfully
decrypted keystore address fails the check with the sender-mismatch error
in normal mode and in dry-run mode alike; dry-run tolerates only keystore
load failures, in which case the supplied sender (or the zero address) is
adopted as the from-address and no mismatch can arise, while normal mode
fails on a load failure. -/
theorem check_sender_mismatch_modes :
    (∀ (dryRun : Bool) (sa ka : Address), sa ≠ ka →
      Check dryRun (some sa) (some ka) = Except.error "sender mismatch") ∧
    (∀ (dryRun : Bool) (ka : Address),
      Check dryRun (some ka) (some ka) = Except.ok ⟨ka, ka, true⟩) ∧
    (∀ (dryRun : Bool) (ka : Address),
      Check dryRun none (some ka) = Except.ok ⟨ka, ka, true⟩) ∧
    (∀ (sa : Address), Check true (some sa) none = Except.ok ⟨sa, sa, false⟩) ∧
    (Check true none none = Except.ok ⟨zeroAddress, zeroAddress, false⟩) ∧
    (∀ (sa : Option Address), Check false sa none = Except.error "load keystore failed") := by
  refine ⟨?_, ?_, ?_, ?_, rfl, ?_⟩
  · intro dr sa ka hne
    simp [Check, hne]
  · intro dr ka
    simp [Check]
  · intro dr ka
    simp [Check]
  · intro sa
    simp [Check]
  · intro sa
    simp [Check]

/-- C7 witness: concrete distinct addresses exercising the normal-mode
mismatch failure and the dry-run load-failure tolerance. -/
theorem check_sender_mismatch_modes_witness :
    addrOf 1 ≠ addrOf 2 ∧
    Check false (some (addrOf 1)) (some (addrOf 2)) = Except.error "sender mismatch" ∧
    Check true (some (addrOf 1)) none = Except.ok ⟨addrOf 1, addrOf 1, false⟩ := by
  refine ⟨by decide, ?_, ?_⟩
  · exact check_sender_mismatch_modes.1 false (addrOf 1) (addrOf 2) (by decide)
  · exact check_sender_mismatch_modes.2.2.2.1 (addrOf 1)

/-- C9 counterexample: a run of `setDefaults` whose chain-identifier query
fails once before succeeding terminates with zero sleeps — the loop
`continue`s immediately on failure, contradicting the claim that it sleeps
the configured retry interval between failed attempts (which would demand
one sleep here). -/
theorem setDefaults_retries_without_sleeping :
    setDefaults exampleQueries 2 ⟨none, none, none, none, none⟩ =
      (some ⟨some 1, some 1, some 3, some 5, some 90000⟩, 0) ∧
    (setDefaults exampleQueries 2 ⟨none, none, none, none, none⟩).2 ≠ 1 := by decide

/-- C9 amended: `setDefaults` loops until the chain-identifier, nonce and
gas-price queries have all succeeded, retrying failed queries immediately
(no sleeping) and never returning an error (its type has no error
result); if the three queries first succeed on attempts `a`, `b`, `c`
respectively, it terminates after `a + b + c + 1` iterations with all
three parameters set, the signer bound to the fetched chain identifier,
and the gas limit defaulted to the constant 90000 when not supplied. -/
theorem setDefaults_resolves_parameters (q : DefaultsQueries) (a b c : Nat) (cv : Int)
    (nv : Nat) (pv : Int) (gl0 : Option Nat)
    (hcf : ∀ i, i < a → q.chainIDAt i = none) (hcs : q.chainIDAt a = some cv)
    (hnf : ∀ i, i < b → q.nonceAt i = none) (hns : q.nonceAt b = some nv)
    (hgf : ∀ i, i < c → q.gasPriceAt i = none) (hgs : q.gasPriceAt c = some pv) :
    setDefaults q (a + b + c + 1) ⟨none, none, none, none, gl0⟩ =
      (some ⟨some cv, some (newEIP155Signer cv), some nv, some pv,
        some (gl0.getD 90000)⟩, 0) := by
  unfold setDefaults
  have h := setDefaults_stageCID q cv nv pv b c hnf hns hgf hgs a 0
    ⟨none, none, none, none, gl0⟩ (by simpa using hcf) (by simpa using hcs) rfl rfl rfl
  rw [h]
  cases gl0 <;> rfl

/-- C9 witness: the chain-identifier query fails once then returns 1, the
nonce query returns 3 and the gas-price query 5 immediately; two
iterations resolve everything, bind the signer to chain id 1 and default
the gas limit to 90000. -/
theorem setDefaults_resolves_parameters_witness :
    (∀ i, i < 1 → exampleQueries.chainIDAt i = none) ∧
    setDefaults exampleQueries (1 + 0 + 0 + 1) ⟨none, none, none, none, none⟩ =
      (some ⟨some 1, some 1, some 3, some 5, some 90000⟩, 0) := by
  refine ⟨by decide, ?_⟩
  have h := setDefaults_resolves_parameters exampleQueries 1 0 0 1 3 5 none
    (by decide) (by decide) (by decide) (by decide) (by decide) (by decide)
  simpa using h

/-- C1: if the first `k` attempted transfers of a batch succeed and the
`(k+1)`-th fails (sign or submit), the run stops at that attempt (exactly
`k + 1` sends attempted), returns the send-failure error, the output
ledger holds exactly one body line per transfer that succeeded before the
failure, and the failure report pairs the rewards already sent with the
batch total. -/
theorem batch_aborts_on_first_send_failure (canSaveDB : Bool) (tok : Address) (tv : Int)
    (oracle : Nat → SendTxOracle) (k : Nat) (stats : List AccountStat) (args : ResolvedArgs)
    (hgood : ∀ i, i < k → goodAttempt (oracle i))
    (hbad : badAttempt (oracle k))
    (hk : k < (posEntries stats).length) :
    ∃ argsF sgF subF,
      SendRewardsFromFileLoop false canSaveDB tok tv oracle stats args =
        ⟨argsF, ledgerOf oracle 0 ((posEntries stats).take k),
         sumRewards ((posEntries stats).take k), k + 1, sgF, subF,
         some "[sendRewards] send tx failed",
         ⟨tv, sumRewards ((posEntries stats).take k)⟩⟩ ∧
      (ledgerOf oracle 0 ((posEntries stats).take k)).length = k := by
  obtain ⟨argsF, sgF, subF, h⟩ :=
    runRewardsLoop_fail_at canSaveDB tok tv oracle stats k args [] 0 0 0 0
      (fun i hi => by simpa using hgood i hi)
      (by simpa using hbad)
      hk
  refine ⟨argsF, sgF, subF, ?_, ?_⟩
  · unfold SendRewardsFromFileLoop
    rw [h]
    simp
  · rw [ledgerOf_length]
    rw [List.length_take]
    omega

/-- C1 witness: a five-entry batch with rewards 2..6 (total 20) whose
third send fails at submission: exactly two ledger lines exist, three
sends were attempted, the run fails, and the report reads "5 of 20
sent". -/
theorem batch_aborts_on_first_send_failure_witness :
    (∀ i, i < 2 → goodAttempt (oracleFailAt2 i)) ∧ badAttempt (oracleFailAt2 2) ∧
    (SendRewardsFromFileLoop false false (addrOf 7) 20 oracleFailAt2 exampleBatch5
      exampleArgs).err = some "[sendRewards] send tx failed" ∧
    (SendRewardsFromFileLoop false false (addrOf 7) 20 oracleFailAt2 exampleBatch5
      exampleArgs).attempts = 3 ∧
    (SendRewardsFromFileLoop false false (addrOf 7) 20 oracleFailAt2 exampleBatch5
      exampleArgs).ledger.length = 2 ∧
    (SendRewardsFromFileLoop false false (addrOf 7) 20 oracleFailAt2 exampleBatch5
      exampleArgs).report = ⟨20, 5⟩ := by
  obtain ⟨argsF, sgF, subF, heq, hlen⟩ :=
    batch_aborts_on_first_send_failure false (addrOf 7) 20 oracleFailAt2 2 exampleBatch5
      exampleArgs (by decide) (by decide) (by decide)
  refine ⟨by decide, by decide, ?_, ?_, ?_, ?_⟩
  · rw [heq]
  · rw [heq]
  · rw [heq]
    exact hlen
  · rw [heq]
    show (⟨20, sumRewards ((posEntries exampleBatch5).take 2)⟩ : Report) = ⟨20, 5⟩
    decide

/-- C5: entries whose reward is nil, zero or negative are complete no-ops
of the batch loop — the loop computes the same result on the batch with
them filtered out — and on the spec's example batch [(A,0), (B,5), (C,−1)]
only B is attempted, only B gets a ledger line, and the run does not
fail. -/
theorem nonpositive_rewards_skipped :
    (∀ (dryRun canSaveDB : Bool) (tok : Address) (tv : Int) (oracle : Nat → SendTxOracle)
        (stats : List AccountStat) (args : ResolvedArgs) (ledger : List LedgerLine)
        (sended : Int) (att sg sub : Nat),
      runRewardsLoop dryRun canSaveDB tok tv oracle stats args ledger sended att sg sub =
        runRewardsLoop dryRun canSaveDB tok tv oracle (filterPositive stats) args ledger
          sended att sg sub) ∧
    filterPositive exampleBatchABC = [⟨addrOf 2, some 5⟩] ∧
    (SendRewardsFromFileLoop false false (addrOf 7) 5 oracleAllGood exampleBatchABC
      exampleArgs).attempts = 1 ∧
    (SendRewardsFromFileLoop false false (addrOf 7) 5 oracleAllGood exampleBatchABC
      exampleArgs).ledger = [⟨addrOf 2, 5, some 100⟩] ∧
    (SendRewardsFromFileLoop false false (addrOf 7) 5 oracleAllGood exampleBatchABC
      exampleArgs).err = none := by
  refine ⟨?_, by decide, by decide, by decide, by decide⟩
  intro dryRun canSaveDB tok tv oracle stats args ledger sended att sg sub
  exact runRewardsLoop_filterPositive dryRun canSaveDB tok tv oracle stats args ledger
    sended att sg sub

/-- C6: a dry-run `sendRewardsTransaction` returns a nil hash and nil
error without building, signing or submitting anything; a dry run of the
whole batch loop therefore succeeds, signs and submits nothing, leaves
the builder state untouched, and writes one hashless ledger line per
positive-reward entry. -/
theorem dry_run_never_signs_or_submits :
    (∀ (args : ResolvedArgs) (account : Address) (reward : Int) (rewardToken : Address)
        (o : SendTxOracle),
      sendRewardsTransaction args account reward rewardToken true o =
        ⟨none, none, args, none, false, false⟩) ∧
    (∀ (canSaveDB : Bool) (tok : Address) (tv : Int) (oracle : Nat → SendTxOracle)
        (stats : List AccountStat) (args : ResolvedArgs),
      SendRewardsFromFileLoop true canSaveDB tok tv oracle stats args =
        ⟨args, (posEntries stats).map (fun p => ⟨p.1, p.2, none⟩),
         sumRewards (posEntries stats), (posEntries stats).length, 0, 0,
         none, ⟨tv, sumRewards (posEntries stats)⟩⟩) := by
  refine ⟨fun args account reward rewardToken o => rfl, ?_⟩
  intro canSaveDB tok tv oracle stats args
  have h := runRewardsLoop_dryRun canSaveDB tok tv oracle stats args [] 0 0 0 0
  simpa using h

end ANYTokenDist
